import Mathlib

/-!
Verification of the godon-breeders breeder-worker core against its
natural-language specification.

The Python sources are shallowly embedded: machine floats that can only be
finite reals or plus infinity are modelled by `EFloat` (rationals plus an
infinity marker; NaN never reaches the embedded functions because
`extract_scalar_value` turns NaN into Python `None`, modelled as `Option`),
Python dicts are association lists with unique keys, and functions that can
raise return `Except`.
-/

/-- Python float values reaching the worker: a finite value or plus infinity.
Negative infinity is outside the model; every penalty and Prometheus sample
in the sources is finite or plus infinity. -/
inductive EFloat where
  | val : ℚ → EFloat
  | inf : EFloat
deriving DecidableEq, Repr

/-- Strict comparison of embedded floats, with infinity above every finite value. -/
def EFloat.ltb : EFloat → EFloat → Bool
  | EFloat.val a, EFloat.val b => decide (a < b)
  | EFloat.val _, EFloat.inf => true
  | EFloat.inf, _ => false

/-- Non-strict comparison of embedded floats. -/
def EFloat.leb : EFloat → EFloat → Bool
  | EFloat.val a, EFloat.val b => decide (a ≤ b)
  | _, EFloat.inf => true
  | EFloat.inf, EFloat.val _ => false

/-- IEEE-style addition: any operand equal to plus infinity absorbs. -/
def EFloat.add : EFloat → EFloat → EFloat
  | EFloat.val a, EFloat.val b => EFloat.val (a + b)
  | _, _ => EFloat.inf

/-- Division of an embedded float by a positive natural number. -/
def EFloat.divNat : EFloat → ℕ → EFloat
  | EFloat.val a, n => EFloat.val (a / n)
  | EFloat.inf, _ => EFloat.inf

/-- Ordered insertion for rationals, the helper of `qSort`. -/
def qInsert (x : ℚ) : List ℚ → List ℚ
  | [] => [x]
  | y :: ys => if x ≤ y then x :: y :: ys else y :: qInsert x ys

/-- Insertion sort for rationals, modelling the ascending sort inside
Python statistics.median. -/
def qSort : List ℚ → List ℚ
  | [] => []
  | x :: xs => qInsert x (qSort xs)

/-- Python statistics.median on rationals: middle element for odd length,
average of the two middle elements for even length.  Callers guarantee a
non-empty list, so the fallback defaults are never reached. -/
def pyMedian (l : List ℚ) : ℚ :=
  let s := qSort l
  let n := l.length
  if n % 2 = 1 then s.getD (n / 2) 0
  else (s.getD (n / 2 - 1) 0 + s.getD (n / 2) 0) / 2

/-- Python statistics.mean on rationals. -/
def pyMean (l : List ℚ) : ℚ := l.sum / l.length

/-- Python builtin min on a non-empty list of rationals. -/
def pyMin : List ℚ → ℚ
  | [] => 0
  | x :: xs => xs.foldl min x

/-- Python builtin max on a non-empty list of rationals. -/
def pyMax : List ℚ → ℚ
  | [] => 0
  | x :: xs => xs.foldl max x

/-- The if-chain on the aggregation method name inside aggregate_samples
(src/reconnaissance/prometheus.py lines 63..73): median, mean, min, max,
anything else defaulting to median. -/
def aggregateValid (valid : List ℚ) (method : String) : ℚ :=
  if method = "median" then pyMedian valid
  else if method = "mean" then pyMean valid
  else if method = "min" then pyMin valid
  else if method = "max" then pyMax valid
  else pyMedian valid

/-- The list comprehension of aggregate_samples line 58: keep samples that
are neither None nor float inf. -/
def validSamples (samples : List (Option EFloat)) : List ℚ :=
  samples.filterMap (fun s =>
    match s with
    | some (EFloat.val q) => some q
    | _ => none)

/-- aggregate_samples (src/reconnaissance/prometheus.py lines 47..73):
filter out None and inf samples, return inf when nothing remains, otherwise
reduce with the configured method. -/
def aggregate_samples (samples : List (Option EFloat)) (method : String) : EFloat :=
  let valid := validSamples samples
  if valid.isEmpty then EFloat.inf
  else EFloat.val (aggregateValid valid method)

/-- Ordered insertion for embedded floats. -/
def efInsert (x : EFloat) : List EFloat → List EFloat
  | [] => [x]
  | y :: ys => if EFloat.leb x y then x :: y :: ys else y :: efInsert x ys

/-- Insertion sort for embedded floats, infinity sorting last. -/
def efSort : List EFloat → List EFloat
  | [] => []
  | x :: xs => efInsert x (efSort xs)

/-- Median over embedded floats, mirroring statistics.median under IEEE
arithmetic (an infinite middle value propagates). -/
def efMedian (l : List EFloat) : EFloat :=
  let s := efSort l
  let n := l.length
  if n % 2 = 1 then s.getD (n / 2) EFloat.inf
  else EFloat.divNat (EFloat.add (s.getD (n / 2 - 1) EFloat.inf) (s.getD (n / 2) EFloat.inf)) 2

/-- Mean over embedded floats under IEEE arithmetic: any infinite sample
makes the mean infinite. -/
def efMean (l : List EFloat) : EFloat :=
  EFloat.divNat (l.foldl EFloat.add (EFloat.val 0)) l.length

/-- Minimum of a non-empty list of embedded floats. -/
def efMin : List EFloat → EFloat
  | [] => EFloat.inf
  | x :: xs => xs.foldl (fun a b => if EFloat.leb a b then a else b) x

/-- Maximum of a non-empty list of embedded floats. -/
def efMax : List EFloat → EFloat
  | [] => EFloat.inf
  | x :: xs => xs.foldl (fun a b => if EFloat.leb a b then b else a) x

/-- Modelled from the spec for comparison with the source: the C6 sentence
says aggregation reduces the NON-NULL samples (with median as the default
method) and returns plus infinity only when no non-null sample remains.
Infinite samples are kept here, exactly as the sentence reads. -/
def aggregateNonNullSpec (samples : List (Option EFloat)) (method : String) : EFloat :=
  let nonNull := samples.filterMap id
  match nonNull with
  | [] => EFloat.inf
  | _ :: _ =>
    if method = "median" then efMedian nonNull
    else if method = "mean" then efMean nonNull
    else if method = "min" then efMin nonNull
    else if method = "max" then efMax nonNull
    else efMedian nonNull

/-- Recognizer for samples that are present and finite. -/
def isFiniteSample : Option EFloat → Bool
  | some (EFloat.val _) => true
  | _ => false

/-- The finite value of a sample, defaulting to zero (used only under
an isFiniteSample guard). -/
def sampleValue : Option EFloat → ℚ
  | some (EFloat.val q) => q
  | _ => 0

/-- String pattern form of the aggregator dispatch, used by the amended C6
statement: median, mean, min, max, and median for an unknown method. -/
def aggregatorSpec (method : String) : List ℚ → ℚ :=
  match method with
  | "median" => pyMedian
  | "mean" => pyMean
  | "min" => pyMin
  | "max" => pyMax
  | _ => pyMedian

/-- Amended C6 statement of aggregation, following the spec words corrected
by the counterexample: reduce the non-null AND finite samples, returning
plus infinity when none remain. -/
def aggregateFiniteSpec (samples : List (Option EFloat)) (method : String) : EFloat :=
  let finite := (samples.filter isFiniteSample).map sampleValue
  match finite with
  | [] => EFloat.inf
  | _ :: _ => EFloat.val (aggregatorSpec method finite)

theorem validSamples_eq_filter_map (samples : List (Option EFloat)) :
    (samples.filter isFiniteSample).map sampleValue = validSamples samples := by
  induction samples with
  | nil => rfl
  | cons s rest ih =>
    cases s with
    | none => simpa [validSamples, isFiniteSample, List.filterMap_cons] using ih
    | some e =>
      cases e with
      | val q =>
        simpa [validSamples, isFiniteSample, sampleValue, List.filterMap_cons] using ih
      | inf => simpa [validSamples, isFiniteSample, List.filterMap_cons] using ih

theorem aggregatorSpec_eq_aggregateValid (method : String) (l : List ℚ) :
    aggregatorSpec method l = aggregateValid l method := by
  by_cases h1 : method = "median"
  · simp [aggregatorSpec, aggregateValid, h1]
  · by_cases h2 : method = "mean"
    · simp [aggregatorSpec, aggregateValid, h1, h2]
    · by_cases h3 : method = "min"
      · simp [aggregatorSpec, aggregateValid, h1, h2, h3]
      · by_cases h4 : method = "max"
        · simp [aggregatorSpec, aggregateValid, h1, h2, h3, h4]
        · simp [aggregatorSpec, aggregateValid, h1, h2, h3, h4]

theorem validSamples_filter (samples : List (Option EFloat)) :
    validSamples (samples.filter isFiniteSample) = validSamples samples := by
  induction samples with
  | nil => rfl
  | cons s rest ih =>
    cases s with
    | none => simpa [validSamples, isFiniteSample, List.filterMap_cons] using ih
    | some e =>
      cases e with
      | val q =>
        simpa [validSamples, isFiniteSample, List.filterMap_cons] using ih
      | inf => simpa [validSamples, isFiniteSample, List.filterMap_cons] using ih

theorem validSamples_nil_of_no_finite (samples : List (Option EFloat))
    (h : ∀ s ∈ samples, s = none ∨ s = some EFloat.inf) :
    validSamples samples = [] := by
  induction samples with
  | nil => rfl
  | cons s rest ih =>
    have hs := h s (List.mem_cons_self s rest)
    have hrest : ∀ x ∈ rest, x = none ∨ x = some EFloat.inf :=
      fun x hx => h x (List.mem_cons_of_mem s hx)
    rcases hs with hs | hs <;>
      simp [validSamples, List.filterMap_cons, hs, ih hrest] at *
    · exact ih hrest
    · exact ih hrest

/-- Claim C9: aggregate_samples discards plus-infinity sample values in
addition to null ones before aggregating; the result equals the aggregate
of only the finite entries, and a list whose entries are all infinite or
null yields plus infinity. -/
theorem aggregate_samples_finite_only (samples : List (Option EFloat)) (method : String) :
    aggregate_samples samples method = aggregate_samples (samples.filter isFiniteSample) method
    ∧ ((∀ s ∈ samples, s = none ∨ s = some EFloat.inf) →
        aggregate_samples samples method = EFloat.inf) := by
  constructor
  · simp [aggregate_samples, validSamples_filter]
  · intro h
    simp [aggregate_samples, validSamples_nil_of_no_finite samples h]

/-- Witness for C9 at a concrete input: a null sample followed by an
infinite sample aggregates to plus infinity. -/
theorem aggregate_samples_finite_only_witness :
    aggregate_samples [none, some EFloat.inf] "median" = EFloat.inf :=
  (aggregate_samples_finite_only [none, some EFloat.inf] "median").2 (by decide)

/-- Claim C6, counterexample: on the sample list with value 1 followed by
plus infinity and method max, the source discards the infinite sample and
returns 1, while reducing the non-null samples as the claim states would
return plus infinity (the maximum of 1 and infinity). -/
theorem aggregate_samples_nonnull_cex :
    aggregate_samples [some (EFloat.val 1), some EFloat.inf] "max" = EFloat.val 1
    ∧ aggregateNonNullSpec [some (EFloat.val 1), some EFloat.inf] "max" = EFloat.inf
    ∧ aggregate_samples [some (EFloat.val 1), some EFloat.inf] "max" ≠
        aggregateNonNullSpec [some (EFloat.val 1), some EFloat.inf] "max" := by
  refine ⟨by decide, by decide, by decide⟩

/-- Claim C6 as amended: aggregation reduces the non-null AND finite
samples by the configured aggregator (median, mean, min, max, median for an
unspecified or unknown method) and returns plus infinity whenever no finite
non-null sample remains, in particular when every sample was NaN or
infinite. -/
theorem aggregate_samples_agrees_finite_spec (samples : List (Option EFloat)) (method : String) :
    aggregate_samples samples method = aggregateFiniteSpec samples method := by
  have hv := validSamples_eq_filter_map samples
  cases h : validSamples samples with
  | nil => simp [aggregate_samples, aggregateFiniteSpec, hv, h]
  | cons a t =>
    simp [aggregate_samples, aggregateFiniteSpec, hv, h, aggregatorSpec_eq_aggregateValid]

/-- Python configuration values that can appear as a guardrail hard limit:
a finite number (int or float), plus infinity, or a string. -/
inductive PyVal where
  | num : ℚ → PyVal
  | inf : PyVal
  | str : String → PyVal
deriving DecidableEq, Repr

/-- Python truthiness of a configuration value: zero and the empty string
are falsy. -/
def PyVal.truthy : PyVal → Bool
  | PyVal.num q => decide (q ≠ 0)
  | PyVal.inf => true
  | PyVal.str s => !s.isEmpty

/-- The isinstance check against int and float of breeder_worker line 594. -/
def PyVal.isNumeric : PyVal → Bool
  | PyVal.num _ => true
  | PyVal.inf => true
  | PyVal.str _ => false

/-- The comparison metric_value greater than hard_limit, for a numeric
hard limit. -/
def metricExceeds (metricValue : EFloat) (hardLimit : PyVal) : Bool :=
  match hardLimit with
  | PyVal.num q => EFloat.ltb (EFloat.val q) metricValue
  | PyVal.inf => false
  | PyVal.str _ => false

/-- One entry of the configured guardrails list: guardrail.get with a
missing key is modelled by none. -/
structure Guardrail where
  name : Option String
  hard_limit : Option PyVal
deriving DecidableEq, Repr

/-- A recorded guardrail violation: the source formats it as a message
string carrying the guardrail name, the actual value and the hard limit;
the triple is modelled structurally. -/
structure Violation where
  name : String
  hard_limit : PyVal
  actual : EFloat
deriving DecidableEq, Repr

/-- Python dict get on the metrics map. -/
def metricsGet (metrics : List (String × EFloat)) (k : String) : Option EFloat :=
  metrics.lookup k

/-- The per-guardrail body of the loop in _check_guardrails
(src/linux_performance/breeder_worker.py lines 572..603), yielding the
violation this guardrail contributes, if any: skipped when the hard limit
is absent or falsy, when the metric is missing, or when the hard limit is
not numeric. -/
def guardrailViolation (metrics : List (String × EFloat)) (g : Guardrail) : Option Violation :=
  match g.hard_limit with
  | none => none
  | some hl =>
    if !hl.truthy then none
    else
      match metricsGet metrics (g.name.getD "unknown") with
      | none => none
      | some mv =>
        if hl.isNumeric then
          if metricExceeds mv hl then some ⟨g.name.getD "unknown", hl, mv⟩ else none
        else none

/-- _check_guardrails (src/linux_performance/breeder_worker.py lines
549..605): early return when no guardrail is configured, otherwise a loop
appending violations, returning the violated flag and the list. -/
def check_guardrails (guardrails : List Guardrail) (metrics : List (String × EFloat)) :
    Bool × List Violation :=
  if guardrails.isEmpty then (false, [])
  else
    let violations := guardrails.foldl (fun acc g =>
      match g.hard_limit with
      | none => acc
      | some hl =>
        if !hl.truthy then acc
        else
          match metricsGet metrics (g.name.getD "unknown") with
          | none => acc
          | some mv =>
            if hl.isNumeric then
              if metricExceeds mv hl then acc ++ [⟨g.name.getD "unknown", hl, mv⟩] else acc
            else acc) []
    (decide (violations.length > 0), violations)

theorem check_guardrails_foldl (metrics : List (String × EFloat))
    (guardrails : List Guardrail) (acc : List Violation) :
    guardrails.foldl (fun acc g =>
      match g.hard_limit with
      | none => acc
      | some hl =>
        if !hl.truthy then acc
        else
          match metricsGet metrics (g.name.getD "unknown") with
          | none => acc
          | some mv =>
            if hl.isNumeric then
              if metricExceeds mv hl then acc ++ [⟨g.name.getD "unknown", hl, mv⟩] else acc
            else acc) acc
    = acc ++ guardrails.filterMap (guardrailViolation metrics) := by
  induction guardrails generalizing acc with
  | nil => simp
  | cons g rest ih =>
    have hstep : (match g.hard_limit with
        | none => acc
        | some hl =>
          if !hl.truthy then acc
          else
            match metricsGet metrics (g.name.getD "unknown") with
            | none => acc
            | some mv =>
              if hl.isNumeric then
                if metricExceeds mv hl then acc ++ [(⟨g.name.getD "unknown", hl, mv⟩ : Violation)]
                else acc
              else acc)
        = acc ++ (guardrailViolation metrics g).toList := by
      cases hhl : g.hard_limit with
      | none => simp [guardrailViolation, hhl]
      | some hl =>
        by_cases ht : hl.truthy
        · cases hmv : metricsGet metrics (g.name.getD "unknown") with
          | none => simp [guardrailViolation, hhl, ht, hmv]
          | some mv =>
            by_cases hn : hl.isNumeric
            · by_cases he : metricExceeds mv hl
              · simp [guardrailViolation, hhl, ht, hmv, hn, he]
              · simp [guardrailViolation, hhl, ht, hmv, hn, he]
            · simp [guardrailViolation, hhl, ht, hmv, hn]
        · simp [guardrailViolation, hhl, ht]
    rw [List.foldl_cons, hstep, ih, List.filterMap_cons]
    cases hv : guardrailViolation metrics g <;> simp [hv, List.append_assoc]

/-- Claim C2, counterexample: a guardrail with the numeric hard limit 0 and
a metric value 5 strictly above it records NO violation and the violated
flag stays false, because the falsy-value check on the hard limit skips the
guardrail before the numeric comparison; the claim predicts a violation for
every numeric hard limit. -/
theorem check_guardrails_zero_limit_cex :
    check_guardrails [⟨some "g", some (PyVal.num 0)⟩] [("g", EFloat.val 5)] = (false, [])
    ∧ (PyVal.num 0).isNumeric = true
    ∧ metricExceeds (EFloat.val 5) (PyVal.num 0) = true := by
  refine ⟨by decide, by decide, by decide⟩

/-- Claim C2 as amended: a violation is recorded exactly for each guardrail
whose hard_limit is numeric and truthy (in particular nonzero) and whose
named metric value is strictly greater than the limit; a guardrail whose
hard_limit is absent or falsy, whose metric is missing from the map, or
whose hard_limit is non-numeric contributes nothing; and the violated flag
is true if and only if the violation list is non-empty. -/
theorem check_guardrails_characterization (guardrails : List Guardrail)
    (metrics : List (String × EFloat)) :
    (check_guardrails guardrails metrics).2 = guardrails.filterMap (guardrailViolation metrics)
    ∧ ((check_guardrails guardrails metrics).1 = true ↔
        (check_guardrails guardrails metrics).2 ≠ []) := by
  cases guardrails with
  | nil => simp [check_guardrails]
  | cons g rest =>
    have h2 := check_guardrails_foldl metrics (g :: rest) []
    constructor
    · simpa [check_guardrails] using h2
    · simp [check_guardrails, h2, List.length_pos]

/-- The per-target rollback state blob stored in the study user_attrs
(src/linux_performance/breeder_worker.py lines 627..633). -/
structure RollbackState where
  state : String
  consecutive_failures : ℕ
  last_successful_params : Option (List (String × ℚ))
  rollback_strategy : String
  version : ℕ
deriving DecidableEq, Repr

/-- The initial rollback state written by _init_rollback_state. -/
def initialRollbackState (strategyName : String) : RollbackState :=
  ⟨"normal", 0, none, strategyName, 0⟩

/-- _update_rollback_state (breeder_worker.py lines 652..672): bump the
version for optimistic locking and persist. -/
def update_rollback_state (s : RollbackState) : RollbackState :=
  { s with version := s.version + 1 }

/-- _check_needs_rollback (breeder_worker.py lines 674..698): compare the
STORED consecutive-failures counter against the strategy threshold
(strategy.get consecutive_failures, default 3). -/
def check_needs_rollback (rollbackEnabled : Bool) (stored : RollbackState)
    (threshold : ℕ) : Bool :=
  if !rollbackEnabled then false
  else decide (threshold ≤ stored.consecutive_failures)

/-- _handle_guardrail_violation (breeder_worker.py lines 798..822), called
after every failed trial (guardrail violation at line 1009 and trial
exception at line 1061).  It increments the counter on a local copy of the
state, but the _check_needs_rollback call re-reads the persisted state,
which still holds the PRE-increment counter; the increment is only written
afterwards by _update_rollback_state, which also bumps the version. -/
def handle_guardrail_violation (rollbackEnabled : Bool) (stored : RollbackState)
    (threshold : ℕ) : RollbackState :=
  if !rollbackEnabled then stored
  else
    let incremented := { stored with consecutive_failures := stored.consecutive_failures + 1 }
    let newState :=
      if check_needs_rollback rollbackEnabled stored threshold then "needs_rollback"
      else "normal"
    update_rollback_state { incremented with state := newState }

/-- _handle_successful_trial (breeder_worker.py lines 824..842): reset the
counter, record the parameters and bump the version. -/
def handle_successful_trial (rollbackEnabled : Bool) (stored : RollbackState)
    (params : List (String × ℚ)) : RollbackState :=
  if !rollbackEnabled then stored
  else update_rollback_state
    { stored with consecutive_failures := 0, state := "normal",
                  last_successful_params := some params }

/-- Claim C1, counterexample: with threshold 3 and a stored counter of 2,
the failure handler increments the counter to 3 (at least the threshold),
bumps the version, yet writes state normal, because the needs-rollback
check reads the stored pre-increment counter 2.  The claim predicts state
needs_rollback as soon as the incremented count reaches the threshold. -/
theorem handle_guardrail_violation_threshold_cex :
    handle_guardrail_violation true ⟨"normal", 2, none, "standard", 2⟩ 3
      = ⟨"normal", 3, none, "standard", 3⟩
    ∧ (3 : ℕ) ≤ 3
    ∧ (handle_guardrail_violation true ⟨"normal", 2, none, "standard", 2⟩ 3).state
        ≠ "needs_rollback" := by
  refine ⟨by decide, by decide, by decide⟩

/-- Claim C1 as amended: after each failed trial with rollback enabled the
stored counter is incremented by one and the version is incremented, but
the stored state field equals needs_rollback exactly when the
PRE-increment counter already reached the threshold N, i.e. when the
incremented count is at least N + 1; when the incremented count equals N
the stored state remains normal (the separate needs-rollback check before
the next trial still fires, since it re-reads the by-then persisted
counter). -/
theorem handle_guardrail_violation_transition (stored : RollbackState) (threshold : ℕ) :
    (handle_guardrail_violation true stored threshold).consecutive_failures
        = stored.consecutive_failures + 1
    ∧ (handle_guardrail_violation true stored threshold).version = stored.version + 1
    ∧ ((handle_guardrail_violation true stored threshold).state = "needs_rollback"
        ↔ threshold + 1 ≤ stored.consecutive_failures + 1) := by
  refine ⟨?_, ?_, ?_⟩
  · by_cases h : threshold ≤ stored.consecutive_failures <;>
      simp [handle_guardrail_violation, check_needs_rollback, update_rollback_state, h]
  · by_cases h : threshold ≤ stored.consecutive_failures <;>
      simp [handle_guardrail_violation, check_needs_rollback, update_rollback_state, h]
  · by_cases h : threshold ≤ stored.consecutive_failures <;>
      simp [handle_guardrail_violation, check_needs_rollback, update_rollback_state, h]

/-- Optuna trial states relevant to the worker. -/
inductive TrialStatus where
  | running
  | complete
  | fail
  | pruned
deriving DecidableEq, Repr

/-- A frozen trial as the worker sees it: its state, its objective values
(empty when the trial has none) and its parameter assignment. -/
structure FrozenTrial where
  status : TrialStatus
  values : List ℚ
  params : List (String × ℚ)
deriving DecidableEq, Repr

/-- One configured objective: name, direction and optional quality
threshold. -/
structure ObjectiveCfg where
  name : String
  direction : String
  quality_threshold : Option ℚ
deriving DecidableEq, Repr

/-- A configured rollback strategy block from config.rollback_strategies. -/
structure RollbackStrategyCfg where
  consecutive_failures : ℕ
  target_state : String
  on_failure : String
deriving DecidableEq, Repr

/-- Indexing best_trials with 0: on an empty list Python raises IndexError. -/
def bestTrialsFirst (bestTrials : List FrozenTrial) : Except String FrozenTrial :=
  match bestTrials with
  | [] => Except.error "IndexError"
  | t :: _ => Except.ok t

/-- _check_quality_thresholds (breeder_worker.py lines 901..927).  The
guard indexes best_trials with 0, raising IndexError on an empty list; a
trial object is always truthy, so the early false return never fires.
Directions other than minimize and maximize impose no constraint, and the
zip truncates to the shorter of values and objectives. -/
def check_quality_thresholds (bestTrials : List FrozenTrial)
    (objectives : List ObjectiveCfg) : Except String Bool :=
  match bestTrials with
  | [] => Except.error "IndexError"
  | best :: _ =>
    if objectives.isEmpty then Except.ok false
    else if objectives.any (fun o => o.quality_threshold.isNone) then Except.ok false
    else Except.ok ((best.values.zip objectives).all (fun p =>
      let threshold := p.2.quality_threshold.getD 0
      if p.2.direction = "minimize" then decide (p.1 ≤ threshold)
      else if p.2.direction = "maximize" then decide (threshold ≤ p.1)
      else true))

/-- _execute_rollback (breeder_worker.py lines 700..796).  The external
effectuation flow call is abstracted by flowOutcome; the try block covers
only that call, so the IndexError from indexing empty best_trials
propagates out of the function.  The returned pair carries the Python bool
result and the persisted rollback state; under on_failure stop the
exception is re-raised after the failed state was written. -/
def execute_rollback (rollbackState : RollbackState) (strategy : RollbackStrategyCfg)
    (bestTrials : List FrozenTrial) (flowOutcome : Except String Unit) :
    Except String (Bool × RollbackState) :=
  let selected : Except String (Option (List (String × ℚ))) :=
    if strategy.target_state = "previous" then
      Except.ok rollbackState.last_successful_params
    else if strategy.target_state = "best" then
      match bestTrialsFirst bestTrials with
      | Except.error e => Except.error e
      | Except.ok t => Except.ok (some t.params)
    else if strategy.target_state = "baseline" then Except.ok (some [])
    else Except.ok none
  match selected with
  | Except.error e => Except.error e
  | Except.ok none => Except.ok (false, rollbackState)
  | Except.ok (some _) =>
    match flowOutcome with
    | Except.ok _ =>
      Except.ok (true, update_rollback_state
        { rollbackState with state := "completed", consecutive_failures := 0 })
    | Except.error e =>
      if strategy.on_failure = "stop" then Except.error e
      else if strategy.on_failure = "continue" then
        Except.ok (false, update_rollback_state { rollbackState with state := "failed" })
      else if strategy.on_failure = "skip_target" then
        Except.ok (false, update_rollback_state { rollbackState with state := "skip_target" })
      else Except.ok (false, rollbackState)

/-- _should_continue (breeder_worker.py lines 844..870): minimum and
maximum iteration counts, then the time budget (abstracted to a boolean,
since it reads the wall clock), then the quality thresholds when
quality_achieved is set. -/
def should_continue (minIterations maxIterations : ℕ) (nTrials : ℕ)
    (timeBudgetExceeded : Bool) (qualityAchieved : Bool)
    (bestTrials : List FrozenTrial) (objectives : List ObjectiveCfg) :
    Except String Bool :=
  if nTrials < minIterations then Except.ok true
  else if maxIterations ≤ nTrials then Except.ok false
  else if timeBudgetExceeded then Except.ok false
  else if qualityAchieved then
    match check_quality_thresholds bestTrials objectives with
    | Except.error e => Except.error e
    | Except.ok true => Except.ok false
    | Except.ok false => Except.ok true
  else Except.ok true

/-- Claim C10: with no completed trials (so best_trials is empty), both a
rollback whose strategy targets the best trial and the quality-threshold
completion check index best_trials at 0 and raise IndexError instead of
returning a rollback-failure or false result. -/
theorem empty_best_trials_index_error (st : RollbackState) (strategy : RollbackStrategyCfg)
    (flowOutcome : Except String Unit) (objectives : List ObjectiveCfg)
    (hbest : strategy.target_state = "best") :
    execute_rollback st strategy [] flowOutcome = Except.error "IndexError"
    ∧ check_quality_thresholds [] objectives = Except.error "IndexError" := by
  constructor
  · simp [execute_rollback, hbest, bestTrialsFirst]
  · rfl

/-- Witness for C10 at a concrete input. -/
theorem empty_best_trials_index_error_witness :
    execute_rollback (initialRollbackState "standard") ⟨3, "best", "continue"⟩ []
        (Except.ok ()) = Except.error "IndexError"
    ∧ check_quality_thresholds [] [⟨"latency", "minimize", some 1⟩]
        = Except.error "IndexError" :=
  empty_best_trials_index_error (initialRollbackState "standard") ⟨3, "best", "continue"⟩
    (Except.ok ()) [⟨"latency", "minimize", some 1⟩] rfl

/-- Claim C8: should_continue returns true whenever the trial count is
strictly below the configured minimum number of iterations, regardless of
the time budget or the quality thresholds. -/
theorem should_continue_below_min_iterations (minIterations maxIterations nTrials : ℕ)
    (timeBudgetExceeded qualityAchieved : Bool) (bestTrials : List FrozenTrial)
    (objectives : List ObjectiveCfg) (h : nTrials < minIterations) :
    should_continue minIterations maxIterations nTrials timeBudgetExceeded
      qualityAchieved bestTrials objectives = Except.ok true := by
  simp [should_continue, h]

/-- Witness for C8 at a concrete input: 3 trials, minimum 10, with the
time budget exceeded and quality achieved on an empty study (where the
quality check would even raise). -/
theorem should_continue_below_min_witness :
    should_continue 10 1000 3 true true [] [] = Except.ok true :=
  should_continue_below_min_iterations 10 1000 3 true true [] [] (by decide)

/-- The penalty dict comprehension of _execute_trial (breeder_worker.py
lines 540 and 547): every configured objective name maps to plus
infinity. -/
def penalty_map (objectiveNames : List String) : List (String × EFloat) :=
  objectiveNames.map (fun n => (n, EFloat.inf))

/-- _execute_trial (breeder_worker.py lines 515..547).  The external
workflow call pair (run_flow_async and get_result) is abstracted by
flowOutcome: an error models a raised exception, ok none models a result
without a metrics key (result.get metrics with default empty dict), and ok
(some ms) a result carrying the metrics map ms.  The function itself is
total: it never raises. -/
def execute_trial (objectiveNames : List String)
    (flowOutcome : Except String (Option (List (String × EFloat)))) :
    List (String × EFloat) :=
  match flowOutcome with
  | Except.error _ => penalty_map objectiveNames
  | Except.ok result =>
    let metrics := result.getD []
    if metrics.isEmpty then penalty_map objectiveNames
    else metrics

theorem penalty_map_lookup (objectiveNames : List String) (n : String)
    (h : n ∈ objectiveNames) :
    (penalty_map objectiveNames).lookup n = some EFloat.inf := by
  induction objectiveNames with
  | nil => cases h
  | cons a rest ih =>
    by_cases ha : n = a
    · simp [penalty_map, List.lookup, ha]
    · rcases List.mem_cons.mp h with h1 | h1
      · exact absurd h1 ha
      · have hb : (n == a) = false := beq_eq_false_iff_ne.mpr ha
        simpa [penalty_map, List.lookup, hb] using ih h1

/-- Claim C7: executing a trial never raises (the embedding is a total
function); when the workflow raised or its result lacks a metrics map
(missing key or empty map, Python falsiness), every configured objective
name maps to plus infinity in the returned penalty map; otherwise the
workflow metrics map is returned unchanged. -/
theorem execute_trial_penalty_spec (objectiveNames : List String)
    (flowOutcome : Except String (Option (List (String × EFloat)))) (n : String)
    (hmem : n ∈ objectiveNames) :
    (∀ e, flowOutcome = Except.error e →
        (execute_trial objectiveNames flowOutcome).lookup n = some EFloat.inf)
    ∧ (∀ result, flowOutcome = Except.ok result → (result.getD []).isEmpty = true →
        (execute_trial objectiveNames flowOutcome).lookup n = some EFloat.inf)
    ∧ (∀ ms, flowOutcome = Except.ok (some ms) → ms ≠ [] →
        execute_trial objectiveNames flowOutcome = ms) := by
  refine ⟨?_, ?_, ?_⟩
  · intro e he
    simp [execute_trial, he, penalty_map_lookup objectiveNames n hmem]
  · intro result hr hempty
    simp [execute_trial, hr, hempty, penalty_map_lookup objectiveNames n hmem]
  · intro ms hr hne
    simp [execute_trial, hr, hne]

/-- Witness for C7 at concrete inputs: a raised workflow exception yields
the penalty for objective latency, and a present non-empty metrics map is
passed through. -/
theorem execute_trial_penalty_witness :
    (execute_trial ["latency"] (Except.error "boom")).lookup "latency" = some EFloat.inf
    ∧ execute_trial ["latency"] (Except.ok (some [("latency", EFloat.val 10)]))
        = [("latency", EFloat.val 10)] := by
  constructor
  · exact (execute_trial_penalty_spec ["latency"] (Except.error "boom") "latency"
      (by decide)).1 "boom" rfl
  · exact (execute_trial_penalty_spec ["latency"]
      (Except.ok (some [("latency", EFloat.val 10)])) "latency" (by decide)).2.2
      [("latency", EFloat.val 10)] rfl (by simp)

/-- The completed-trials filter of _should_share_trial (breeder_worker.py
line 101): state COMPLETE and a truthy (non-empty) values list. -/
def completedTrials (trials : List FrozenTrial) : List FrozenTrial :=
  trials.filter (fun t => decide (t.status = TrialStatus.complete) && !t.values.isEmpty)

/-- The first objective value of a trial, plus infinity when the trial has
no values (breeder_worker.py line 107). -/
def firstObjectiveValue (values : List ℚ) : EFloat :=
  match values with
  | [] => EFloat.inf
  | v :: _ => EFloat.val v

/-- scipy.stats.percentileofscore with the default kind rank, as called at
breeder_worker.py lines 111, 115 and 119: with left the count of values
strictly below the score and right the count of values at most the score,
the percentile is (left + right + 1 if any value equals the score) times
50 over the list length. -/
def percentileofscore (a : List ℚ) (score : EFloat) : ℚ :=
  let n := a.length
  let left := (a.filter (fun v => EFloat.ltb (EFloat.val v) score)).length
  let right := (a.filter (fun v => EFloat.leb (EFloat.val v) score)).length
  ((left + right + (if left < right then 1 else 0) : ℕ) : ℚ) * 50 / n

/-- _should_share_trial (breeder_worker.py lines 95..126).  The uniform
random draw of the probabilistic branch is abstracted by randomDraw; the
remaining branches are deterministic.  trialValues are the values of the
trial under consideration, studyTrials the trials of the study. -/
def should_share_trial (shareStrategy : String)
    (comProbability topPercentile bottomPercentile : ℚ)
    (minTrialsForFiltering : ℕ) (randomDraw : ℚ)
    (studyTrials : List FrozenTrial) (trialValues : List ℚ) : Bool :=
  if shareStrategy = "probabilistic" then decide (randomDraw < comProbability)
  else
    let completed := completedTrials studyTrials
    if completed.length < minTrialsForFiltering then true
    else
      let trialValue := firstObjectiveValue trialValues
      let allValues := completed.filterMap (fun t => t.values.head?)
      if shareStrategy = "best" then
        decide (100 - topPercentile * 100 ≤ percentileofscore allValues trialValue)
      else if shareStrategy = "worst" then
        decide (percentileofscore allValues trialValue ≤ bottomPercentile * 100)
      else if shareStrategy = "extremes" then
        decide (100 - topPercentile * 100 ≤ percentileofscore allValues trialValue)
          || decide (percentileofscore allValues trialValue ≤ bottomPercentile * 100)
      else true

/-- Claim C4: under the best strategy, a trial is unconditionally shared
when fewer than min_trials_for_filtering completed trials exist, and
otherwise it is shared if and only if the percentile of its first
objective among the completed trials first-objective values is at least
100 minus top_percentile times 100. -/
theorem cooperation_best_share_iff_percentile
    (comProbability topPercentile bottomPercentile : ℚ)
    (minTrialsForFiltering : ℕ) (randomDraw : ℚ)
    (studyTrials : List FrozenTrial) (trialValues : List ℚ) :
    ((completedTrials studyTrials).length < minTrialsForFiltering →
      should_share_trial "best" comProbability topPercentile bottomPercentile
        minTrialsForFiltering randomDraw studyTrials trialValues = true)
    ∧ (minTrialsForFiltering ≤ (completedTrials studyTrials).length →
      (should_share_trial "best" comProbability topPercentile bottomPercentile
          minTrialsForFiltering randomDraw studyTrials trialValues = true
        ↔ 100 - topPercentile * 100 ≤
            percentileofscore
              ((completedTrials studyTrials).filterMap (fun t => t.values.head?))
              (firstObjectiveValue trialValues))) := by
  constructor
  · intro h
    simp [should_share_trial, h]
  · intro h
    have hn : ¬ (completedTrials studyTrials).length < minTrialsForFiltering :=
      not_lt.mpr h
    simp [should_share_trial, hn]

/-- The study of spec scenario S4: twelve completed trials with
first-objective values 1 to 12. -/
def s4Trials : List FrozenTrial :=
  [⟨TrialStatus.complete, [1], []⟩, ⟨TrialStatus.complete, [2], []⟩,
   ⟨TrialStatus.complete, [3], []⟩, ⟨TrialStatus.complete, [4], []⟩,
   ⟨TrialStatus.complete, [5], []⟩, ⟨TrialStatus.complete, [6], []⟩,
   ⟨TrialStatus.complete, [7], []⟩, ⟨TrialStatus.complete, [8], []⟩,
   ⟨TrialStatus.complete, [9], []⟩, ⟨TrialStatus.complete, [10], []⟩,
   ⟨TrialStatus.complete, [11], []⟩, ⟨TrialStatus.complete, [12], []⟩]

/-- Witness for C4, scenario S4 of the spec: twelve completed trials with
values 1 to 12, top_percentile one fifth, minimum ten trials.  The trial
with value 2 (percentile 50 over 3, below 80) is not shared; the trial
with value 12 (percentile 100) is shared. -/
theorem cooperation_best_witness :
    should_share_trial "best" (4/5) (1/5) (1/5) 10 0 s4Trials [2] = false
    ∧ should_share_trial "best" (4/5) (1/5) (1/5) 10 0 s4Trials [12] = true := by
  have h2 := (cooperation_best_share_iff_percentile (4/5) (1/5) (1/5) 10 0
    s4Trials [2]).2 (by decide)
  have h12 := (cooperation_best_share_iff_percentile (4/5) (1/5) (1/5) 10 0
    s4Trials [12]).2 (by decide)
  constructor
  · have hval : percentileofscore
        ((completedTrials s4Trials).filterMap (fun t => t.values.head?))
        (firstObjectiveValue [2]) = ((4:ℕ) : ℚ) * 50 / ((12:ℕ) : ℚ) := rfl
    have hno : ¬ ((100 : ℚ) - (1/5) * 100 ≤
        percentileofscore
          ((completedTrials s4Trials).filterMap (fun t => t.values.head?))
          (firstObjectiveValue [2])) := by
      rw [hval]; norm_num
    cases hs : should_share_trial "best" (4/5) (1/5) (1/5) 10 0 s4Trials [2] with
    | false => rfl
    | true => exact absurd (h2.mp hs) hno
  · refine h12.mpr ?_
    have hval : percentileofscore
        ((completedTrials s4Trials).filterMap (fun t => t.values.head?))
        (firstObjectiveValue [12]) = ((24:ℕ) : ℚ) * 50 / ((12:ℕ) : ℚ) := rfl
    rw [hval]; norm_num

/-- The fixed ordered sampler list of _assign_sampler (breeder_worker.py
line 203). -/
def all_samplers : List String := ["tpe", "nsga2", "random", "nsga3", "qmc"]

/-- _assign_sampler (breeder_worker.py lines 193..213).  workerHash is the
md5 digest of the worker id read as an integer (the call to hashlib at
line 208, abstracted since the hash itself is an external library); the
sampler is the entry of the truncated list at that hash modulo the
truncated length.  The indexing never misses, so the getD default is
unreachable. -/
def assign_sampler (workerHash : ℕ) (parallelWorkers : ℤ) : String :=
  if parallelWorkers ≤ 1 then "tpe"
  else
    let availableSamplers := all_samplers.take (min parallelWorkers.toNat all_samplers.length)
    availableSamplers.getD (workerHash % availableSamplers.length) "tpe"

/-- The study-name construction of _load_or_create_study (breeder_worker.py
lines 333..337). -/
def study_name (breederId : String) (parallelWorkers : ℤ) (samplerType : String) : String :=
  if parallelWorkers > 1 then breederId ++ "_" ++ samplerType ++ "_study"
  else breederId ++ "_study"

/-- Claim C5: sampler assignment is a deterministic function of the worker
hash and the parallelism (the embedding is a pure function, so re-running
with the same worker id gives the same assignment).  With parallel 1 the
worker uses the tpe sampler and the study name is the breeder id followed
by the bare study suffix; with parallel above 1 the sampler is the entry
of the fixed list [tpe, nsga2, random, nsga3, qmc] truncated to its first
min(parallel, 5) elements, at index hash modulo min(parallel, 5). -/
theorem sampler_assignment_spec (workerHash : ℕ) (parallelWorkers : ℤ) (breederId : String) :
    (parallelWorkers = 1 →
      assign_sampler workerHash parallelWorkers = "tpe"
      ∧ study_name breederId parallelWorkers (assign_sampler workerHash parallelWorkers)
          = breederId ++ "_study")
    ∧ (1 < parallelWorkers →
      assign_sampler workerHash parallelWorkers
        = (all_samplers.take (min parallelWorkers.toNat 5)).getD
            (workerHash % min parallelWorkers.toNat 5) "tpe"
      ∧ study_name breederId parallelWorkers (assign_sampler workerHash parallelWorkers)
          = breederId ++ "_" ++ assign_sampler workerHash parallelWorkers ++ "_study") := by
  constructor
  · intro h
    subst h
    refine ⟨rfl, ?_⟩
    simp [study_name]
  · intro h
    have hle : ¬ parallelWorkers ≤ 1 := not_le.mpr h
    constructor
    · have hlen : (all_samplers.take (min parallelWorkers.toNat 5)).length
          = min parallelWorkers.toNat 5 := by
        simp [all_samplers, List.length_take]
      simp [assign_sampler, hle, all_samplers, hlen]
    · simp [study_name, h]

/-- Witness for C5 at concrete inputs: hash 7 with three parallel workers
selects nsga2 (index 7 mod 3 = 1 of [tpe, nsga2, random]); a single worker
gets tpe. -/
theorem sampler_assignment_witness :
    assign_sampler 7 3 = "nsga2" ∧ assign_sampler 7 1 = "tpe" := by
  constructor
  · exact (((sampler_assignment_spec 7 3 "x").2 (by decide)).1).trans (by rfl)
  · exact ((sampler_assignment_spec 7 1 "x").1 rfl).1

/-- JSON-like Python values making up a breeder configuration. -/
inductive JVal where
  | num : ℚ → JVal
  | str : String → JVal
  | bool : Bool → JVal
  | null : JVal
  | arr : List JVal → JVal
  | obj : List (String × JVal) → JVal

/-- Python truthiness of a configuration value. -/
def JVal.truthy : JVal → Bool
  | JVal.num q => decide (q ≠ 0)
  | JVal.str s => !s.isEmpty
  | JVal.bool b => b
  | JVal.null => false
  | JVal.arr l => !l.isEmpty
  | JVal.obj l => !l.isEmpty

/-- Python dict get with no default on an association list. -/
def objGet (kvs : List (String × JVal)) (k : String) : Option JVal :=
  kvs.lookup k

/-- The Python membership test key in value: key lookup on dicts, element
equality on lists (a non-string element never equals a string key),
substring test on strings, TypeError on anything else. -/
def jHasKey (key : String) : JVal → Except String Bool
  | JVal.obj kvs => Except.ok (kvs.any (fun p => p.1 == key))
  | JVal.arr l => Except.ok (l.any (fun e =>
      match e with
      | JVal.str s => s == key
      | _ => false))
  | JVal.str s => Except.ok (decide ((s.splitOn key).length > 1))
  | _ => Except.error "TypeError"

/-- The Python subscript value[key] with a string key: dict lookup
(KeyError when absent), TypeError on anything else. -/
def jIndex (v : JVal) (k : String) : Except String JVal :=
  match v with
  | JVal.obj kvs =>
    match objGet kvs k with
    | some x => Except.ok x
    | none => Except.error "KeyError"
  | _ => Except.error "TypeError"

/-- Short-circuiting any(key in c for c in cs), as Python generators
evaluate it: a TypeError from a later element is not raised once a match
was found. -/
def anyHasKey (key : String) : List JVal → Except String Bool
  | [] => Except.ok false
  | c :: cs => do
    let b ← jHasKey key c
    if b then pure true else anyHasKey key cs

/-- Short-circuiting step in c and lower in c and upper in c. -/
def hasRangeKeys (c : JVal) : Except String Bool := do
  let s ← jHasKey "step" c
  if !s then pure false
  else do
    let l ← jHasKey "lower" c
    if !l then pure false
    else jHasKey "upper" c

/-- Short-circuiting any(step in c and lower in c and upper in c for c in cs). -/
def anyHasRange : List JVal → Except String Bool
  | [] => Except.ok false
  | c :: cs => do
    let b ← hasRangeKeys c
    if b then pure true else anyHasRange cs

/-- PARAMETER_REGISTRY of src/linux_performance/preflight.py lines 51..135,
in source order, as (name, type, category); the remaining registry fields
are not read by the validator. -/
def PARAMETER_REGISTRY : List (String × String × String) :=
  [("net.ipv4.tcp_rmem", "int", "sysctl"),
   ("net.ipv4.tcp_wmem", "int", "sysctl"),
   ("net.core.netdev_budget", "int", "sysctl"),
   ("net.core.netdev_max_backlog", "int", "sysctl"),
   ("net.core.dev_weight", "int", "sysctl"),
   ("net.ipv4.tcp_congestion_control", "categorical", "sysctl"),
   ("cpu_governor", "categorical", "sysfs"),
   ("transparent_hugepage", "categorical", "sysfs"),
   ("qdisc", "categorical", "sysfs"),
   ("governor", "categorical", "cpufreq"),
   ("min_freq_ghz", "float", "cpufreq"),
   ("max_freq_ghz", "float", "cpufreq")]

/-- ETHTOOL_PARAMS of preflight.py lines 138..159, as (name, type). -/
def ETHTOOL_PARAMS : List (String × String) :=
  [("tso", "categorical"), ("gro", "categorical"),
   ("rx_ring", "int"), ("tx_ring", "int")]

/-- Registry membership lookup over the full registry, as the source
membership test param_name not in PARAMETER_REGISTRY does. -/
def registryLookup (pname : String) : Option (String × String) :=
  PARAMETER_REGISTRY.lookup pname

/-- The joined list of supported parameter names of one category, used in
the unsupported-parameter message. -/
def supportedParams (category : String) : String :=
  String.intercalate ", "
    (PARAMETER_REGISTRY.filterMap (fun p => if p.2.2 = category then some p.1 else none))

/-- The joined ethtool parameter names used in the unsupported-ethtool
message. -/
def ethtoolSupported : String :=
  String.intercalate ", " (ETHTOOL_PARAMS.map Prod.fst)

/-- The constraint shape check shared by the ethtool and non-ethtool paths
(preflight.py lines 204..221 and 240..257): the constraints must be a
list, a categorical parameter needs some element with a values key, an int
or float parameter needs some element with step, lower and upper.  The
message texts mirror the source with quote characters elided. -/
def shapeCheck (prefixStr ptype : String) (constraints : JVal) :
    Except String (List String) :=
  match constraints with
  | JVal.arr cs =>
    if ptype = "categorical" then do
      let hasValues ← anyHasKey "values" cs
      if hasValues then pure []
      else pure [prefixStr ++ ": parameter is categorical but constraints do not have values"]
    else if ptype = "int" ∨ ptype = "float" then do
      let hasRange ← anyHasRange cs
      if hasRange then pure []
      else pure [prefixStr ++ ": parameter is " ++ ptype
        ++ " but constraints do not have step/lower/upper"]
    else pure []
  | _ => Except.ok [prefixStr ++ ": constraints must be a list"]

/-- The ethtool option loop body (preflight.py lines 189..221): ename must
be a supported ethtool parameter; its configuration is probed with the
membership test (which can raise on non-dict values, matching the absent
isinstance check in the source) before the shape check runs. -/
def validateEthtoolOption (iface ename : String) (ecfg : JVal) :
    Except String (List String) :=
  match ETHTOOL_PARAMS.lookup ename with
  | none => Except.ok ["settings.ethtool." ++ iface ++ "." ++ ename
      ++ ": unsupported ethtool parameter. Supported: " ++ ethtoolSupported]
  | some etype => do
    let hasC ← jHasKey "constraints" ecfg
    if !hasC then
      pure ["settings.ethtool." ++ iface ++ "." ++ ename ++ ": missing constraints"]
    else do
      let constraints ← jIndex ecfg "constraints"
      shapeCheck ("settings.ethtool." ++ iface ++ "." ++ ename) etype constraints

/-- Error accumulation over a loop body: errors from each element are
concatenated in order, a raised exception aborts the whole validation
(matching the try block around the loops). -/
def collectErrors {α : Type} (f : α → Except String (List String)) :
    List α → Except String (List String)
  | [] => Except.ok []
  | x :: xs => do
    let e1 ← f x
    let e2 ← collectErrors f xs
    pure (e1 ++ e2)

/-- The parameter loop body (preflight.py lines 177..257): a parameter
configuration must be a dict; under ethtool the parameter name is an
interface whose options are validated one level deeper; otherwise the name
must be in the registry (ALWAYS an error on a miss - the source has no
permissive mode) and the constraints must match the registry type. -/
def validateParamEntry (category pname : String) (pcfgJ : JVal) :
    Except String (List String) :=
  match pcfgJ with
  | JVal.obj pcfg =>
    if category = "ethtool" then
      collectErrors (fun kv => validateEthtoolOption pname kv.1 kv.2) pcfg
    else
      match registryLookup pname with
      | none => Except.ok ["settings." ++ category ++ "." ++ pname
          ++ ": unsupported parameter. Supported " ++ category ++ " parameters: "
          ++ supportedParams category]
      | some tc =>
        match objGet pcfg "constraints" with
        | none => Except.ok ["settings." ++ category ++ "." ++ pname
            ++ ": missing constraints"]
        | some constraints =>
          shapeCheck ("settings." ++ category ++ "." ++ pname) tc.1 constraints
  | _ => Except.ok ["settings." ++ category ++ "." ++ pname ++ ": must be a dict"]

/-- The category list of preflight.py line 167. -/
def CATEGORIES : List String := ["sysctl", "sysfs", "cpufreq", "ethtool"]

/-- The category loop (preflight.py lines 167..257): skip a category
absent from settings (a membership test that can raise on non-container
settings), require a dict, then validate each parameter. -/
def validateSettings (settings : JVal) : Except String (List String) :=
  collectErrors (fun category => do
    let mem ← jHasKey category settings
    if !mem then pure []
    else do
      let categorySettings ← jIndex settings category
      match categorySettings with
      | JVal.obj entries =>
        collectErrors (fun kv => validateParamEntry category kv.1 kv.2) entries
      | _ => pure ["settings." ++ category ++ ": must be a dict"]) CATEGORIES

/-- The result dict of preflight main: FAILURE carries an error string,
SUCCESS a data.message string. -/
structure PreflightResult where
  result : String
  error : Option String
  message : Option String
deriving DecidableEq, Repr

/-- main of src/linux_performance/preflight.py lines 12..277.  The source
signature takes ONLY the config (there is no strict flag and
config.meta.strict_validation is never read).  A falsy config is rejected
up front; a truthy non-dict config raises AttributeError inside the try
block, reported through the except branch; collected errors are joined
into one FAILURE message; otherwise SUCCESS. -/
def preflight_main (config : JVal) : PreflightResult :=
  if !config.truthy then ⟨"FAILURE", some "Missing config parameter", none⟩
  else
    match config with
    | JVal.obj cfg =>
      match validateSettings ((objGet cfg "settings").getD (JVal.obj [])) with
      | Except.error e =>
        ⟨"FAILURE", some ("Preflight validation error: " ++ e), none⟩
      | Except.ok errs =>
        if errs.isEmpty then ⟨"SUCCESS", none, some "Preflight validation passed"⟩
        else ⟨"FAILURE",
          some ("Preflight validation failed:\n"
            ++ String.intercalate "\n" (errs.map (fun e => "  - " ++ e))), none⟩
    | _ => ⟨"FAILURE", some "Preflight validation error: AttributeError", none⟩

/-- A configuration that sets meta.strict_validation to false and declares
one structurally well-formed but unregistered sysctl parameter. -/
def permissiveCfg : JVal :=
  JVal.obj
    [("meta", JVal.obj [("strict_validation", JVal.bool false)]),
     ("settings", JVal.obj
       [("sysctl", JVal.obj
         [("unsupported.param", JVal.obj
           [("constraints", JVal.arr
             [JVal.obj [("step", JVal.num 1), ("lower", JVal.num 0),
               ("upper", JVal.num 100)]])])])])]

/-- Claim C3, counterexample: the validator has no permissive mode.  With
config.meta.strict_validation set to false and a single unregistered but
structurally valid sysctl parameter, the claim predicts a warning plus an
overall SUCCESS; the source returns FAILURE (main takes only the config;
no strict flag exists and meta is never read). -/
theorem preflight_permissive_cex :
    (preflight_main permissiveCfg).result = "FAILURE"
    ∧ (preflight_main permissiveCfg).result ≠ "SUCCESS" := by
  refine ⟨rfl, by decide⟩

/-- A configuration declaring exactly one sysctl parameter with numeric
range constraints, the parameter name left abstract. -/
def singleSysctlCfg (pname : String) : JVal :=
  JVal.obj
    [("settings", JVal.obj
      [("sysctl", JVal.obj
        [(pname, JVal.obj
          [("constraints", JVal.arr
            [JVal.obj [("step", JVal.num 1), ("lower", JVal.num 0),
              ("upper", JVal.num 100)]])])])])]

/-- Inserting or replacing the meta key of a configuration object. -/
def withMeta (v : JVal) (entries : List (String × JVal)) : JVal :=
  JVal.obj (("meta", v) :: entries)

/-- Claim C3 as amended: preflight takes only the config; the result never
depends on config.meta (so meta.strict_validation in particular is
ignored), and a configured parameter absent from the registry always
yields an error and a FAILURE result - validation is unconditionally
strict. -/
theorem preflight_meta_ignored_always_strict :
    (∀ (entries : List (String × JVal)) (v w : JVal),
      preflight_main (withMeta v entries) = preflight_main (withMeta w entries))
    ∧ (∀ pname : String, registryLookup pname = none →
      (preflight_main (singleSysctlCfg pname)).result = "FAILURE") := by
  constructor
  · intro entries v w
    have hb : (("settings" : String) == "meta") = false := rfl
    simp [preflight_main, withMeta, JVal.truthy, objGet, List.lookup, hb]
  · intro pname h
    have hstep : ∃ m, validateParamEntry "sysctl" pname
        (JVal.obj [("constraints", JVal.arr
          [JVal.obj [("step", JVal.num 1), ("lower", JVal.num 0),
            ("upper", JVal.num 100)]])])
        = Except.ok [m] := by
      refine ⟨?_, ?_⟩
      · exact "settings." ++ "sysctl" ++ "." ++ pname
          ++ ": unsupported parameter. Supported " ++ "sysctl" ++ " parameters: "
          ++ supportedParams "sysctl"
      · simp [validateParamEntry, h]
    obtain ⟨m, hstep⟩ := hstep
    simp [preflight_main, singleSysctlCfg, JVal.truthy, objGet, List.lookup,
      validateSettings, CATEGORIES, collectErrors, jHasKey, jIndex, hstep,
      Except.bind, bind, pure, Except.pure]

/-- Witness for the amended C3 at a concrete input: the parameter
unsupported.param is not in the registry and its configuration fails
preflight. -/
theorem preflight_strict_witness :
    (preflight_main (singleSysctlCfg "unsupported.param")).result = "FAILURE" :=
  preflight_meta_ignored_always_strict.2 "unsupported.param" rfl
